import Mathlib

/-!
Shallow embedding of the DeNet_test_task points/referral service, translated
from `internal/repository/postgres/repository.go`, the HTTP handler layer,
and the SQL schema in `migrations/001_create_users_table.up.sql`.

Modelling conventions:
- UUIDs are modelled as `Nat` (opaque identifiers); fresh ids produced by
  `uuid.New()` and the wall clock (`time.Now()` / SQL `NOW()`) are passed in
  as explicit parameters.
- The database is a `Store`: a list of user rows and a list of task rows in
  natural row order.
- Each repository method becomes a function `Store → ... → Except RepoError
  (result × Store)`; the transaction semantics (`BeginTx` / `defer
  tx.Rollback()` / `tx.Commit()`) are captured by `runTx`, which pairs an
  error with the unchanged pre-transaction store.
- The SQL constraints of the schema (`username UNIQUE`, primary keys, the
  `positive_points CHECK (points > 0)` on `tasks`, foreign keys) are part of
  the insert primitives, since the Go code relies on them.
- `database/sql` row scanning is modelled explicitly where it matters: a
  `Scan` is a pattern match of the selected column list against the
  destination list, and fails when the shapes disagree, exactly as the Go
  runtime does.
-/

namespace DeNet

/-- A row of the `users` table:
`users(id, username unique, passw, points, referrer_id nullable, created_at, updated_at)`. -/
structure UserRow where
  id : Nat
  username : String
  passw : String
  points : Int
  referrerId : Option Nat
  createdAt : Nat
  updatedAt : Nat
deriving DecidableEq, Repr

/-- A row of the `tasks` table:
`tasks(id, user_id fk, task_type, points check>0, completed_at)`. -/
structure TaskRow where
  id : Nat
  userId : Nat
  taskType : String
  points : Int
  completedAt : Nat
deriving DecidableEq, Repr

/-- The durable store: both tables, rows kept in natural (insertion) order. -/
structure Store where
  users : List UserRow
  tasks : List TaskRow
deriving DecidableEq, Repr

/-- `models.TaskRequest`: the body of a complete-task request. -/
structure TaskRequest where
  taskType : String
  points : Int
deriving DecidableEq, Repr

/-- Database-level constraint violations surfaced by the driver. -/
inductive DbError where
  /-- `tasks` CHECK constraint `positive_points CHECK (points > 0)`. -/
  | checkPositivePoints
  /-- primary-key or unique-constraint violation. -/
  | duplicateKey
  /-- foreign-key violation. -/
  | foreignKeyViolation
deriving DecidableEq, Repr

/-- The error outcomes of the repository layer, one constructor per distinct
error site in `repository.go`, plus `invalidInput`, produced only by the
HTTP boundary validation in the handler layer. -/
inductive RepoError where
  /-- `errors.New("user not found")` in CompleteTask / AddReferrer. -/
  | userNotFound
  /-- `errors.New("referrer not found")` in AddReferrer. -/
  | referrerNotFound
  /-- `errors.New("user already has a referrer")` in AddReferrer. -/
  | alreadyHasReferrer
  /-- `"failed to insert task: %w"` wrapping a constraint violation. -/
  | insertTaskFailed (e : DbError)
  /-- `"failed to register user: %w"` wrapping the INSERT failure in LoginUser. -/
  | registerInsertFailed (e : DbError)
  /-- `"failed to register user: %w"` wrapping the re-read failure in LoginUser. -/
  | registerReadFailed
  /-- `"failed to get updated user: %w"` in AddReferrer. -/
  | getUpdatedUserFailed
  /-- `database/sql`: destination-count mismatch in `Rows.Scan`. -/
  | scanMismatch
  /-- boundary-layer validation failure (HTTP 400 in the handlers). -/
  | invalidInput
  /-- PostgreSQL rejects `LIMIT` with a negative argument. -/
  | negativeLimit
deriving DecidableEq, Repr

/-- `SELECT ... WHERE id = $1` on `users`: first row whose id matches. -/
def findUser (s : Store) (uid : Nat) : Option UserRow :=
  s.users.find? (fun u => u.id == uid)

/-- `SELECT EXISTS(SELECT 1 FROM users WHERE id = $1)`. -/
def userExists (s : Store) (uid : Nat) : Bool :=
  (findUser s uid).isSome

/-- Apply `g` to a row exactly when its id matches `uid` (the row filter of
an `UPDATE users ... WHERE id = $2`). -/
def updateRow (uid : Nat) (g : UserRow → UserRow) (u : UserRow) : UserRow :=
  if u.id == uid then g u else u

/-- `UPDATE users SET ... WHERE id = uid`: rewrite every matching row in place. -/
def updateUsers (s : Store) (uid : Nat) (g : UserRow → UserRow) : Store :=
  { s with users := s.users.map (updateRow uid g) }

/-- `INSERT INTO tasks (id, user_id, task_type, points, completed_at)`, with
the schema constraints of the `tasks` table: `positive_points CHECK
(points > 0)`, the primary key on `id`, and the foreign key `user_id →
users.id`. -/
def insertTask (s : Store) (t : TaskRow) : Except DbError Store :=
  if t.points ≤ 0 then .error .checkPositivePoints
  else if s.tasks.any (fun t2 => t2.id == t.id) then .error .duplicateKey
  else if (findUser s t.userId).isNone then .error .foreignKeyViolation
  else .ok { s with tasks := s.tasks ++ [t] }

/-- Transaction wrapper: `BeginTx` / `defer tx.Rollback()` / `tx.Commit()`.
On success the committed store is observable; on any error the observable
store is the pre-transaction store (full rollback). -/
def runTx {α : Type} (s : Store) (r : Except RepoError (α × Store)) :
    Except RepoError α × Store :=
  match r with
  | .ok (a, s2) => (.ok a, s2)
  | .error e => (.error e, s)

/-- `Repository.CompleteTask`: inside one transaction, check the user exists,
insert the task row, and add its points to the user balance refreshing
`updated_at`; `taskId` stands for `uuid.New()` and `now` for the clock. -/
def CompleteTask (s : Store) (now taskId userID : Nat) (req : TaskRequest) :
    Except RepoError (TaskRow × Store) :=
  if userExists s userID = false then .error .userNotFound
  else
    let task : TaskRow :=
      { id := taskId, userId := userID, taskType := req.taskType,
        points := req.points, completedAt := now }
    match insertTask s task with
    | .error e => .error (.insertTaskFailed e)
    | .ok s1 =>
        let s2 := updateUsers s1 userID
          (fun u => { u with points := u.points + req.points, updatedAt := now })
        .ok (task, s2)

/-- `Repository.CompleteTask` as observed through the transaction boundary. -/
def CompleteTaskRun (s : Store) (now taskId userID : Nat) (req : TaskRequest) :
    Except RepoError TaskRow × Store :=
  runTx s (CompleteTask s now taskId userID req)

/-- The referral bonus hard-coded in `Repository.AddReferrer`. -/
def bonusPoints : Int := 10

/-- The user row returned by the re-read at the end of `AddReferrer`: the
SELECT lists six columns and the Scan has six matching destinations, none of
which is `Password`, so the returned struct carries the Go zero value there. -/
def reReadUser (u : UserRow) : UserRow := { u with passw := "" }

/-- `Repository.AddReferrer`: inside one transaction, check the referrer
exists, check the user exists and has no referrer yet, set the referrer link
on the user, credit the fixed bonus to the referrer (both refreshing
`updated_at`), and re-read and return the updated user row. -/
def AddReferrer (s : Store) (now userID referrerID : Nat) :
    Except RepoError (UserRow × Store) :=
  if userExists s referrerID = false then .error .referrerNotFound
  else
    match findUser s userID with
    | none => .error .userNotFound
    | some u =>
      if u.referrerId.isSome then .error .alreadyHasReferrer
      else
        let s1 := updateUsers s userID
          (fun v => { v with referrerId := some referrerID, updatedAt := now })
        let s2 := updateUsers s1 referrerID
          (fun v => { v with points := v.points + bonusPoints, updatedAt := now })
        match findUser s2 userID with
        | none => .error .getUpdatedUserFailed
        | some u2 => .ok (reReadUser u2, s2)

/-- `Repository.AddReferrer` as observed through the transaction boundary. -/
def AddReferrerRun (s : Store) (now userID referrerID : Nat) :
    Except RepoError UserRow × Store :=
  runTx s (AddReferrer s now userID referrerID)

/-- A value produced by the SQL driver for one selected column. -/
inductive SqlValue where
  | uuid (n : Nat)
  | str (s : String)
  | int (i : Int)
  | nullableUuid (o : Option Nat)
  | time (t : Nat)
deriving DecidableEq, Repr

/-- The column list of the SELECT in `Repository.GetUserByID`:
`SELECT id, username, points, referrer_id, created_at, updated_at` —
six columns, and `passw` is not among them. -/
def getUserSelectedColumns (u : UserRow) : List SqlValue :=
  [.uuid u.id, .str u.username, .int u.points, .nullableUuid u.referrerId,
   .time u.createdAt, .time u.updatedAt]

/-- The Scan in `Repository.GetUserByID` passes seven destinations:
`&user.ID, &user.Username, &user.Password, &user.Points, &referrerID,
&user.CreatedAt, &user.UpdatedAt`. `database/sql` fails the Scan whenever
the destination list does not match the selected columns, which is what the
fall-through case models. -/
def scanGetUser (vals : List SqlValue) : Except RepoError UserRow :=
  match vals with
  | [.uuid i, .str un, .str pw, .int pts, .nullableUuid r, .time c, .time upd] =>
      .ok { id := i, username := un, passw := pw, points := pts,
            referrerId := r, createdAt := c, updatedAt := upd }
  | _ => .error .scanMismatch

/-- `Repository.GetUserByID`: `QueryRow` + `Scan`. A missing row surfaces as
`sql.ErrNoRows`, which the Go code turns into `(nil, nil)` — modelled as
`.ok none`; a present row goes through `scanGetUser`. -/
def GetUserByID (s : Store) (uid : Nat) : Except RepoError (Option UserRow) :=
  match findUser s uid with
  | none => .ok none
  | some row => (scanGetUser (getUserSelectedColumns row)).map some

/-- Insert a row into a list already ordered by points descending, before the
first row with strictly fewer points. -/
def insertPointsDesc (u : UserRow) : List UserRow → List UserRow
  | [] => [u]
  | v :: vs => if v.points < u.points then u :: v :: vs else v :: insertPointsDesc u vs

/-- `ORDER BY points DESC` over the user rows: a stable descending sort, so
rows with equal points keep their natural row order. -/
def sortPointsDesc : List UserRow → List UserRow
  | [] => []
  | u :: us => insertPointsDesc u (sortPointsDesc us)

/-- The user rows returned by the leaderboard query: six columns selected and
six scanned, none of them `passw`, so the structs carry the zero value there. -/
def leaderboardRow (u : UserRow) : UserRow := { u with passw := "" }

/-- `Repository.GetLeaderboard`: `SELECT id, username, points, referrer_id,
created_at, updated_at FROM users ORDER BY points DESC LIMIT $1`. The Go
`limit` is an `int`; PostgreSQL rejects a negative LIMIT argument. -/
def GetLeaderboard (s : Store) (limit : Int) : Except RepoError (List UserRow) :=
  if limit < 0 then .error .negativeLimit
  else .ok (((sortPointsDesc s.users).take limit.toNat).map leaderboardRow)

/-- The user row returned by `Repository.LoginUser`: the re-read SELECT lists
`id, username, passw, created_at, updated_at` and Scan has those five
destinations, so `Points` and `ReferrerID` keep their Go zero values. -/
def loginReadUser (u : UserRow) : UserRow :=
  { u with points := 0, referrerId := none }

/-- `Repository.LoginUser`: `INSERT INTO users (username, passw) VALUES
($1, $2)` — the password value is stored as supplied, with no hashing — then
a re-read of the new row by username. The insert is subject to the schema
constraints `username UNIQUE` and the primary key on `id`; `newId` stands
for the server-generated `uuid_generate_v4()` default and `now` for the
`NOW()` defaults of the timestamp columns. -/
def LoginUser (s : Store) (now newId : Nat) (username password : String) :
    Except RepoError (UserRow × Store) :=
  if s.users.any (fun u => u.username == username) then
    .error (.registerInsertFailed .duplicateKey)
  else if s.users.any (fun u => u.id == newId) then
    .error (.registerInsertFailed .duplicateKey)
  else
    let row : UserRow :=
      { id := newId, username := username, passw := password, points := 0,
        referrerId := none, createdAt := now, updatedAt := now }
    let s1 : Store := { s with users := s.users ++ [row] }
    match s1.users.find? (fun u => u.username == username) with
    | none => .error .registerReadFailed
    | some r => .ok (loginReadUser r, s1)

/-- `Repository.LoginUser` with its observable store effect. `LoginUser` runs
outside any transaction, but its only failure points precede the insert, so
pairing an error with the unchanged store is faithful. -/
def LoginUserRun (s : Store) (now newId : Nat) (username password : String) :
    Except RepoError UserRow × Store :=
  runTx s (LoginUser s now newId username password)

/-- The complete-task validation of `UserHandler.CompleteTask`: rejects an
empty task type, then non-positive points, with HTTP 400. -/
def handlerValidateTaskRequest (req : TaskRequest) : Except RepoError Unit :=
  if req.taskType = "" then .error .invalidInput
  else if req.points ≤ 0 then .error .invalidInput
  else .ok ()

/-- The self-referral guard of `UserHandler.AddReferrer`: rejects
`userID == referrerID` with HTTP 400 before calling the service. -/
def handlerValidateAddReferrer (userID referrerID : Nat) : Except RepoError Unit :=
  if userID == referrerID then .error .invalidInput else .ok ()

/-- Rows ordered by points descending, the order promised by `ORDER BY points
DESC`. -/
def PointsDescSorted (l : List UserRow) : Prop :=
  l.Pairwise (fun a b => b.points ≤ a.points)

/-- Example row: one registered user with 5 points and no referrer. -/
def aliceRow : UserRow :=
  { id := 1, username := "alice", passw := "pw", points := 5,
    referrerId := none, createdAt := 0, updatedAt := 0 }

/-- Example row: a second registered user with 3 points and no referrer. -/
def bobRow : UserRow :=
  { id := 2, username := "bob", passw := "pw", points := 3,
    referrerId := none, createdAt := 0, updatedAt := 0 }

/-- Example store with a single user. -/
def storeAlice : Store := { users := [aliceRow], tasks := [] }

/-- Example store with two unlinked users. -/
def storeAliceBob : Store := { users := [aliceRow, bobRow], tasks := [] }

/-- Example store in which user 1 already has user 2 as referrer. -/
def storeLinked : Store :=
  { users :=
      [{ id := 1, username := "a", passw := "p", points := 0,
         referrerId := some 2, createdAt := 0, updatedAt := 0 },
       { id := 2, username := "b", passw := "p", points := 7,
         referrerId := none, createdAt := 0, updatedAt := 0 }],
    tasks := [] }

/-- Example store whose users hold points 50, 10, 30, 40 in row order. -/
def demoStore : Store :=
  { users :=
      [{ id := 1, username := "a", passw := "p", points := 50,
         referrerId := none, createdAt := 0, updatedAt := 0 },
       { id := 2, username := "b", passw := "p", points := 10,
         referrerId := none, createdAt := 0, updatedAt := 0 },
       { id := 3, username := "c", passw := "p", points := 30,
         referrerId := none, createdAt := 0, updatedAt := 0 },
       { id := 4, username := "d", passw := "p", points := 40,
         referrerId := none, createdAt := 0, updatedAt := 0 }],
    tasks := [] }

/-! ### Helper lemmas -/

theorem runTx_snd_of_error {α : Type} (s : Store) (r : Except RepoError (α × Store))
    (e : RepoError) (h : (runTx s r).1 = .error e) : (runTx s r).2 = s := by
  cases r with
  | ok p => simp [runTx] at h
  | error e2 => rfl

theorem find?_map_comm {α : Type} (f : α → α) (p : α → Bool)
    (h : ∀ a, p (f a) = p a) (l : List α) :
    (l.map f).find? p = (l.find? p).map f := by
  induction l with
  | nil => rfl
  | cons a l ih =>
      simp only [List.map_cons, List.find?_cons, h a]
      cases p a <;> simp [ih]

theorem updateRow_id (uid : Nat) (g : UserRow → UserRow)
    (hg : ∀ u, (g u).id = u.id) (u : UserRow) : (updateRow uid g u).id = u.id := by
  unfold updateRow
  split <;> simp [hg]

theorem findUser_updateUsers (s : Store) (uid v : Nat) (g : UserRow → UserRow)
    (hg : ∀ u, (g u).id = u.id) :
    findUser (updateUsers s uid g) v = (findUser s v).map (updateRow uid g) := by
  unfold findUser updateUsers
  exact find?_map_comm _ _ (fun a => by simp [updateRow_id uid g hg]) _

theorem findUser_updateUsers_self (s : Store) (uid : Nat) (g : UserRow → UserRow)
    (hg : ∀ u, (g u).id = u.id) (u : UserRow) (hf : findUser s uid = some u) :
    findUser (updateUsers s uid g) uid = some (g u) := by
  rw [findUser_updateUsers s uid uid g hg, hf]
  have hf2 : s.users.find? (fun w => w.id == uid) = some u := hf
  have hid := List.find?_some hf2
  simp only [] at hid
  simp [updateRow, hid]

theorem findUser_updateUsers_ne (s : Store) (uid v : Nat) (g : UserRow → UserRow)
    (hg : ∀ u, (g u).id = u.id) (hne : v ≠ uid) :
    findUser (updateUsers s uid g) v = findUser s v := by
  rw [findUser_updateUsers s uid v g hg]
  cases hf : findUser s v with
  | none => rfl
  | some u =>
      have hf2 : s.users.find? (fun w => w.id == v) = some u := hf
      have hid := List.find?_some hf2
      have hidv : u.id = v := by simpa using hid
      simp [updateRow, hidv, hne]

theorem updateUsers_tasks (s : Store) (uid : Nat) (g : UserRow → UserRow) :
    (updateUsers s uid g).tasks = s.tasks := rfl

theorem mem_insertPointsDesc (u x : UserRow) :
    ∀ l : List UserRow, x ∈ insertPointsDesc u l → x = u ∨ x ∈ l := by
  intro l
  induction l with
  | nil =>
      intro hx
      simp [insertPointsDesc] at hx
      exact Or.inl hx
  | cons v vs ih =>
      intro hx
      by_cases hc : v.points < u.points
      · simp only [insertPointsDesc, if_pos hc, List.mem_cons] at hx
        rcases hx with h | h
        · exact Or.inl h
        · exact Or.inr (List.mem_cons.2 h)
      · simp only [insertPointsDesc, if_neg hc, List.mem_cons] at hx
        rcases hx with h | h
        · exact Or.inr (List.mem_cons.2 (Or.inl h))
        · rcases ih h with h1 | h1
          · exact Or.inl h1
          · exact Or.inr (List.mem_cons.2 (Or.inr h1))

theorem sorted_insertPointsDesc (u : UserRow) (l : List UserRow)
    (h : PointsDescSorted l) : PointsDescSorted (insertPointsDesc u l) := by
  induction l with
  | nil => simp [insertPointsDesc, PointsDescSorted]
  | cons v vs ih =>
      rw [PointsDescSorted, List.pairwise_cons] at h
      obtain ⟨hv, hvs⟩ := h
      by_cases hc : v.points < u.points
      · rw [PointsDescSorted]
        simp only [insertPointsDesc, if_pos hc]
        refine List.Pairwise.cons ?_ (List.Pairwise.cons hv hvs)
        intro x hx
        rcases List.mem_cons.1 hx with rfl | hx
        · exact le_of_lt hc
        · exact le_trans (hv x hx) (le_of_lt hc)
      · rw [PointsDescSorted]
        simp only [insertPointsDesc, if_neg hc]
        refine List.Pairwise.cons ?_ (ih hvs)
        intro x hx
        rcases mem_insertPointsDesc u x vs hx with rfl | hx
        · exact le_of_not_lt hc
        · exact hv x hx

theorem sorted_sortPointsDesc (l : List UserRow) :
    PointsDescSorted (sortPointsDesc l) := by
  induction l with
  | nil => simp [sortPointsDesc, PointsDescSorted]
  | cons u us ih => exact sorted_insertPointsDesc u _ ih

theorem completeTask_eq_ok (s : Store) (now taskId userID : Nat)
    (req : TaskRequest) (u : UserRow)
    (hu : findUser s userID = some u) (hp : 0 < req.points)
    (hfresh : ∀ t ∈ s.tasks, t.id ≠ taskId) :
    CompleteTask s now taskId userID req
      = .ok ({ id := taskId, userId := userID, taskType := req.taskType,
               points := req.points, completedAt := now },
             updateUsers
               { s with tasks := s.tasks ++
                   [{ id := taskId, userId := userID, taskType := req.taskType,
                      points := req.points, completedAt := now }] }
               userID
               (fun v => { v with points := v.points + req.points, updatedAt := now })) := by
  have hex : userExists s userID = true := by simp [userExists, hu]
  have hnp : ¬ (req.points ≤ 0) := not_le.2 hp
  have hany : (s.tasks.any (fun t2 => t2.id == taskId)) = false := by
    rw [List.any_eq_false]
    intro t ht
    simp [hfresh t ht]
  have hfk : (findUser s userID).isNone = false := by simp [hu]
  simp [CompleteTask, insertTask, hex, hnp, hany, hfk]

/-- C1: for a store in which `userID` exists and `points > 0` (with a fresh
task id from `uuid.New()`), a successful `CompleteTask` returns the created
task with its server-assigned id and timestamp, appends exactly that one row
to the task ledger, adds exactly `points` to the user balance while
refreshing `updated_at`, leaves every other user untouched, and — as one
atomic unit — on any failure the observable store is the unchanged
pre-transaction store. -/
theorem completeTask_success (s : Store) (now taskId userID : Nat)
    (req : TaskRequest) (u : UserRow)
    (hu : findUser s userID = some u) (hp : 0 < req.points)
    (hfresh : ∀ t ∈ s.tasks, t.id ≠ taskId) :
    (CompleteTaskRun s now taskId userID req).1
        = .ok { id := taskId, userId := userID, taskType := req.taskType,
                points := req.points, completedAt := now }
    ∧ (CompleteTaskRun s now taskId userID req).2.tasks
        = s.tasks ++ [{ id := taskId, userId := userID, taskType := req.taskType,
                        points := req.points, completedAt := now }]
    ∧ findUser (CompleteTaskRun s now taskId userID req).2 userID
        = some { u with points := u.points + req.points, updatedAt := now }
    ∧ (∀ v, v ≠ userID →
        findUser (CompleteTaskRun s now taskId userID req).2 v = findUser s v)
    ∧ (∀ s0 n1 t1 u1 r1 e, (CompleteTaskRun s0 n1 t1 u1 r1).1 = .error e →
        (CompleteTaskRun s0 n1 t1 u1 r1).2 = s0) := by
  have heq := completeTask_eq_ok s now taskId userID req u hu hp hfresh
  have hrun : CompleteTaskRun s now taskId userID req
      = (.ok { id := taskId, userId := userID, taskType := req.taskType,
               points := req.points, completedAt := now },
         updateUsers
           { s with tasks := s.tasks ++
               [{ id := taskId, userId := userID, taskType := req.taskType,
                  points := req.points, completedAt := now }] }
           userID
           (fun v => { v with points := v.points + req.points, updatedAt := now })) := by
    unfold CompleteTaskRun
    rw [heq]
    rfl
  have hrun1 : (CompleteTaskRun s now taskId userID req).1
      = .ok { id := taskId, userId := userID, taskType := req.taskType,
              points := req.points, completedAt := now } := by
    rw [hrun]
  have hrun2 : (CompleteTaskRun s now taskId userID req).2
      = updateUsers
          { s with tasks := s.tasks ++
              [{ id := taskId, userId := userID, taskType := req.taskType,
                 points := req.points, completedAt := now }] }
          userID
          (fun v => { v with points := v.points + req.points, updatedAt := now }) := by
    rw [hrun]
  refine ⟨hrun1, ?_, ?_, ?_, ?_⟩
  · rw [hrun2]
    rfl
  · rw [hrun2]
    exact findUser_updateUsers_self
      { s with tasks := s.tasks ++
          [{ id := taskId, userId := userID, taskType := req.taskType,
             points := req.points, completedAt := now }] }
      userID
      (fun v => { v with points := v.points + req.points, updatedAt := now })
      (fun v => rfl) u hu
  · intro v hv
    rw [hrun2]
    rw [findUser_updateUsers_ne _ userID v
      (fun w => { w with points := w.points + req.points, updatedAt := now })
      (fun w => rfl) hv]
    rfl
  · intro s0 n1 t1 u1 r1 e h
    exact runTx_snd_of_error s0 _ e h

/-- C1 witness: the generic theorem instantiated on a one-user store, a fresh
task id and a 7-point task. -/
theorem completeTask_success_witness :
    (CompleteTaskRun storeAlice 3 100 1 { taskType := "daily", points := 7 }).1
      = .ok { id := 100, userId := 1, taskType := "daily", points := 7,
              completedAt := 3 } :=
  (completeTask_success storeAlice 3 100 1 { taskType := "daily", points := 7 }
    aliceRow rfl (by decide) (by intro t ht; cases ht)).1

/-- C7: for a `userID` that is absent from the store, `CompleteTask` fails
with the user-not-found error and the observable store is completely
unchanged: no task row is inserted and no balance is changed. -/
theorem completeTask_missing_user (s : Store) (now taskId userID : Nat)
    (req : TaskRequest) (h : findUser s userID = none) :
    CompleteTaskRun s now taskId userID req = (.error .userNotFound, s) := by
  unfold CompleteTaskRun CompleteTask runTx
  simp [userExists, h]

/-- C7 witness: user 2 does not exist in the one-user store. -/
theorem completeTask_missing_user_witness :
    CompleteTaskRun storeAlice 3 100 2 { taskType := "daily", points := 7 }
      = (.error .userNotFound, storeAlice) :=
  completeTask_missing_user storeAlice 3 100 2 { taskType := "daily", points := 7 } rfl

/-- C4 counterexample: with an existing user and `points = 0`, the engine
does not fail with the boundary-level invalid-input error: the call reaches
the INSERT and fails there with the `positive_points` CHECK-constraint
violation of the `tasks` table, a different error value. -/
theorem completeTask_zero_points_counterexample :
    (CompleteTaskRun storeAlice 3 100 1 { taskType := "daily", points := 0 }).1
        = .error (.insertTaskFailed .checkPositivePoints)
    ∧ RepoError.insertTaskFailed .checkPositivePoints ≠ RepoError.invalidInput := by
  exact ⟨rfl, by decide⟩

/-- C4 (amended): for every `points ≤ 0`, `CompleteTask` fails and leaves the
store unchanged, but the engine performs no explicit `points > 0`
re-validation: when the user exists the failure is the `positive_points`
CHECK-constraint violation raised by the INSERT (and rolled back), when the
user is missing it is the not-found error, and the `points > 0` rejection
with `invalidInput` lives only in the HTTP boundary validation. -/
theorem completeTask_nonpositive_points (s : Store) (now taskId userID : Nat)
    (tt : String) (p : Int) (hp : p ≤ 0) :
    (CompleteTaskRun s now taskId userID { taskType := tt, points := p }).2 = s
    ∧ (userExists s userID = true →
        (CompleteTaskRun s now taskId userID { taskType := tt, points := p }).1
          = .error (.insertTaskFailed .checkPositivePoints))
    ∧ (userExists s userID = false →
        (CompleteTaskRun s now taskId userID { taskType := tt, points := p }).1
          = .error .userNotFound)
    ∧ handlerValidateTaskRequest { taskType := tt, points := p }
        = .error .invalidInput := by
  have hhandler : handlerValidateTaskRequest { taskType := tt, points := p }
      = .error .invalidInput := by
    by_cases htt : tt = "" <;> simp [handlerValidateTaskRequest, htt, hp]
  cases hex : userExists s userID with
  | true =>
      have hct : CompleteTask s now taskId userID { taskType := tt, points := p }
          = .error (.insertTaskFailed .checkPositivePoints) := by
        simp [CompleteTask, insertTask, hex, hp]
      refine ⟨?_, fun _ => ?_, fun hf => ?_, hhandler⟩
      · unfold CompleteTaskRun
        rw [hct]
        rfl
      · unfold CompleteTaskRun
        rw [hct]
        rfl
      · simp at hf
  | false =>
      have hct : CompleteTask s now taskId userID { taskType := tt, points := p }
          = .error .userNotFound := by
        simp [CompleteTask, hex]
      refine ⟨?_, fun hf => ?_, fun _ => ?_, hhandler⟩
      · unfold CompleteTaskRun
        rw [hct]
        rfl
      · simp at hf
      · unfold CompleteTaskRun
        rw [hct]
        rfl

/-- C4 witness: the amended theorem instantiated at `points = -2` on the
one-user store. -/
theorem completeTask_nonpositive_points_witness :
    (CompleteTaskRun storeAlice 3 100 1 { taskType := "daily", points := -2 }).2
      = storeAlice :=
  (completeTask_nonpositive_points storeAlice 3 100 1 "daily" (-2) (by decide)).1

theorem addReferrer_eq_ok (s : Store) (now userID referrerID : Nat) (u : UserRow)
    (hu : findUser s userID = some u) (hur : u.referrerId = none)
    (hexr : userExists s referrerID = true) (hne : userID ≠ referrerID) :
    AddReferrer s now userID referrerID
      = .ok ({ u with passw := "", referrerId := some referrerID, updatedAt := now },
             updateUsers
               (updateUsers s userID
                 (fun v => { v with referrerId := some referrerID, updatedAt := now }))
               referrerID
               (fun v => { v with points := v.points + bonusPoints, updatedAt := now })) := by
  have hf1 : findUser (updateUsers s userID
      (fun v => { v with referrerId := some referrerID, updatedAt := now })) userID
      = some { u with referrerId := some referrerID, updatedAt := now } :=
    findUser_updateUsers_self s userID
      (fun v => { v with referrerId := some referrerID, updatedAt := now })
      (fun v => rfl) u hu
  have hf2 : findUser (updateUsers (updateUsers s userID
      (fun v => { v with referrerId := some referrerID, updatedAt := now })) referrerID
      (fun v => { v with points := v.points + bonusPoints, updatedAt := now })) userID
      = some { u with referrerId := some referrerID, updatedAt := now } := by
    rw [findUser_updateUsers_ne _ referrerID userID
      (fun v => { v with points := v.points + bonusPoints, updatedAt := now })
      (fun v => rfl) hne]
    exact hf1
  simp only [AddReferrer, hexr, Bool.true_eq_false, if_false, hu, hur,
    Option.isSome_none, hf2, reReadUser]
  rfl

/-- C2: for a store in which `userID` and `referrerID` both exist, `userID`
has no referrer and `userID ≠ referrerID`, a successful `AddReferrer` sets
the user referrer link to `referrerID`, credits the referrer exactly the
fixed bonus of 10 points, refreshes `updated_at` on both rows, leaves the
task ledger and every other user untouched, returns the re-read updated
user row with its referrer resolved, and on any failure the observable
store is the unchanged pre-transaction store. -/
theorem addReferrer_success (s : Store) (now userID referrerID : Nat)
    (u r : UserRow)
    (hu : findUser s userID = some u) (hur : u.referrerId = none)
    (hr : findUser s referrerID = some r) (hne : userID ≠ referrerID) :
    (AddReferrerRun s now userID referrerID).1
        = .ok { u with passw := "", referrerId := some referrerID, updatedAt := now }
    ∧ findUser (AddReferrerRun s now userID referrerID).2 userID
        = some { u with referrerId := some referrerID, updatedAt := now }
    ∧ findUser (AddReferrerRun s now userID referrerID).2 referrerID
        = some { r with points := r.points + bonusPoints, updatedAt := now }
    ∧ bonusPoints = 10
    ∧ (∀ v, v ≠ userID → v ≠ referrerID →
        findUser (AddReferrerRun s now userID referrerID).2 v = findUser s v)
    ∧ (AddReferrerRun s now userID referrerID).2.tasks = s.tasks
    ∧ (∀ s0 n u0 r0 e, (AddReferrerRun s0 n u0 r0).1 = .error e →
        (AddReferrerRun s0 n u0 r0).2 = s0) := by
  have hexr : userExists s referrerID = true := by simp [userExists, hr]
  have heq := addReferrer_eq_ok s now userID referrerID u hu hur hexr hne
  have hrun : AddReferrerRun s now userID referrerID
      = (.ok { u with passw := "", referrerId := some referrerID, updatedAt := now },
         updateUsers
           (updateUsers s userID
             (fun v => { v with referrerId := some referrerID, updatedAt := now }))
           referrerID
           (fun v => { v with points := v.points + bonusPoints, updatedAt := now })) := by
    unfold AddReferrerRun
    rw [heq]
    rfl
  have hrun1 : (AddReferrerRun s now userID referrerID).1
      = .ok { u with passw := "", referrerId := some referrerID, updatedAt := now } := by
    rw [hrun]
  have hrun2 : (AddReferrerRun s now userID referrerID).2
      = updateUsers
          (updateUsers s userID
            (fun v => { v with referrerId := some referrerID, updatedAt := now }))
          referrerID
          (fun v => { v with points := v.points + bonusPoints, updatedAt := now }) := by
    rw [hrun]
  refine ⟨hrun1, ?_, ?_, rfl, ?_, ?_, ?_⟩
  · rw [hrun2]
    rw [findUser_updateUsers_ne _ referrerID userID
      (fun v => { v with points := v.points + bonusPoints, updatedAt := now })
      (fun v => rfl) hne]
    exact findUser_updateUsers_self s userID
      (fun v => { v with referrerId := some referrerID, updatedAt := now })
      (fun v => rfl) u hu
  · rw [hrun2]
    have hr1 : findUser (updateUsers s userID
        (fun v => { v with referrerId := some referrerID, updatedAt := now })) referrerID
        = some r := by
      rw [findUser_updateUsers_ne s userID referrerID
        (fun v => { v with referrerId := some referrerID, updatedAt := now })
        (fun v => rfl) (Ne.symm hne)]
      exact hr
    exact findUser_updateUsers_self _ referrerID
      (fun v => { v with points := v.points + bonusPoints, updatedAt := now })
      (fun v => rfl) r hr1
  · intro v hvu hvr
    rw [hrun2]
    rw [findUser_updateUsers_ne _ referrerID v
      (fun w => { w with points := w.points + bonusPoints, updatedAt := now })
      (fun w => rfl) hvr]
    rw [findUser_updateUsers_ne s userID v
      (fun w => { w with referrerId := some referrerID, updatedAt := now })
      (fun w => rfl) hvu]
  · rw [hrun2]
    rfl
  · intro s0 n u0 r0 e h
    exact runTx_snd_of_error s0 _ e h

/-- C2 witness: the generic theorem instantiated on the two-user store,
linking user 1 to referrer 2. -/
theorem addReferrer_success_witness :
    (AddReferrerRun storeAliceBob 9 1 2).1
      = .ok { id := 1, username := "alice", passw := "", points := 5,
              referrerId := some 2, createdAt := 0, updatedAt := 9 } :=
  (addReferrer_success storeAliceBob 9 1 2 aliceRow bobRow rfl rfl rfl
    (by decide)).1

/-- C5 counterexample: calling the engine directly with
`userID = referrerID = 1` on a store where user 1 exists with no referrer is
not rejected with the invalid-input error: it succeeds, stores user 1 as its
own referrer, and credits the 10-point bonus to that same user. -/
theorem addReferrer_self_counterexample :
    AddReferrer storeAlice 9 1 1
        = .ok ({ id := 1, username := "alice", passw := "", points := 15,
                 referrerId := some 1, createdAt := 0, updatedAt := 9 },
               { users := [{ id := 1, username := "alice", passw := "pw",
                             points := 15, referrerId := some 1,
                             createdAt := 0, updatedAt := 9 }],
                 tasks := [] })
    ∧ AddReferrer storeAlice 9 1 1 ≠ .error .invalidInput := by
  refine ⟨rfl, ?_⟩
  intro h
  rw [show AddReferrer storeAlice 9 1 1
      = .ok ({ id := 1, username := "alice", passw := "", points := 15,
               referrerId := some 1, createdAt := 0, updatedAt := 9 },
             { users := [{ id := 1, username := "alice", passw := "pw",
                           points := 15, referrerId := some 1,
                           createdAt := 0, updatedAt := 9 }],
               tasks := [] }) from rfl] at h
  cases h

/-- C5 (amended): self-referral is rejected only at the HTTP boundary, whose
handler refuses `userID == referrerID` with the invalid-input error before
calling the engine; the engine itself performs no such check: on a store
where the user exists with no referrer, a direct engine call with
`userID = referrerID` succeeds, sets the user referrer link to the user
itself, and credits the 10-point bonus to that same user. -/
theorem addReferrer_self_boundary_only (s : Store) (now userID : Nat)
    (u : UserRow) (hu : findUser s userID = some u) (hur : u.referrerId = none) :
    handlerValidateAddReferrer userID userID = .error .invalidInput
    ∧ findUser (AddReferrerRun s now userID userID).2 userID
        = some { u with referrerId := some userID,
                        points := u.points + bonusPoints, updatedAt := now }
    ∧ (AddReferrerRun s now userID userID).1
        = .ok { u with passw := "", referrerId := some userID,
                       points := u.points + bonusPoints, updatedAt := now } := by
  have hexr : userExists s userID = true := by simp [userExists, hu]
  have hf1 : findUser (updateUsers s userID
      (fun v => { v with referrerId := some userID, updatedAt := now })) userID
      = some { u with referrerId := some userID, updatedAt := now } :=
    findUser_updateUsers_self s userID
      (fun v => { v with referrerId := some userID, updatedAt := now })
      (fun v => rfl) u hu
  have hf2 : findUser (updateUsers (updateUsers s userID
      (fun v => { v with referrerId := some userID, updatedAt := now })) userID
      (fun v => { v with points := v.points + bonusPoints, updatedAt := now })) userID
      = some { u with referrerId := some userID,
                      points := u.points + bonusPoints, updatedAt := now } := by
    have := findUser_updateUsers_self
      (updateUsers s userID
        (fun v => { v with referrerId := some userID, updatedAt := now })) userID
      (fun v => { v with points := v.points + bonusPoints, updatedAt := now })
      (fun v => rfl) _ hf1
    exact this
  have heq : AddReferrer s now userID userID
      = .ok ({ u with passw := "", referrerId := some userID,
                      points := u.points + bonusPoints, updatedAt := now },
             updateUsers (updateUsers s userID
               (fun v => { v with referrerId := some userID, updatedAt := now })) userID
               (fun v => { v with points := v.points + bonusPoints, updatedAt := now })) := by
    simp only [AddReferrer, hexr, Bool.true_eq_false, if_false, hu, hur,
      Option.isSome_none, hf2, reReadUser]
    rfl
  refine ⟨by simp [handlerValidateAddReferrer], ?_, ?_⟩
  · have hrun2 : (AddReferrerRun s now userID userID).2
        = updateUsers (updateUsers s userID
            (fun v => { v with referrerId := some userID, updatedAt := now })) userID
            (fun v => { v with points := v.points + bonusPoints, updatedAt := now }) := by
      unfold AddReferrerRun
      rw [heq]
      rfl
    rw [hrun2]
    exact hf2
  · unfold AddReferrerRun
    rw [heq]
    rfl

/-- C5 witness for the amended theorem: user 1 with no referrer, engine call
with `userID = referrerID = 1`. -/
theorem addReferrer_self_boundary_only_witness :
    findUser (AddReferrerRun storeAlice 9 1 1).2 1
      = some { id := 1, username := "alice", passw := "pw", points := 15,
               referrerId := some 1, createdAt := 0, updatedAt := 9 } :=
  (addReferrer_self_boundary_only storeAlice 9 1 aliceRow rfl rfl).2.1

/-- C6 counterexample: user 1 already has referrer 2, yet a second
`AddReferrer` call that names the nonexistent referrer 3 fails with the
referrer-not-found error, not with the already-has-referrer conflict,
because the engine checks referrer existence first. -/
theorem addReferrer_second_call_counterexample :
    (AddReferrerRun storeLinked 9 1 3).1 = .error .referrerNotFound
    ∧ RepoError.referrerNotFound ≠ RepoError.alreadyHasReferrer := by
  exact ⟨rfl, by decide⟩

/-- C6 (amended): for a user whose `referrer_id` is already non-null, a
subsequent `AddReferrer` call whose proposed referrer exists fails with the
conflict error (a call naming a nonexistent proposed referrer fails earlier
with the referrer-not-found error); in either case the observable store is
unchanged, so the user keeps exactly the referrer set by the first call and
no points are credited to the newly proposed referrer. -/
theorem addReferrer_after_set (s : Store) (now userID referrerID : Nat)
    (u : UserRow) (r0 : Nat)
    (hu : findUser s userID = some u) (hur : u.referrerId = some r0) :
    (userExists s referrerID = true →
        (AddReferrerRun s now userID referrerID).1 = .error .alreadyHasReferrer)
    ∧ (userExists s referrerID = false →
        (AddReferrerRun s now userID referrerID).1 = .error .referrerNotFound)
    ∧ (AddReferrerRun s now userID referrerID).2 = s
    ∧ findUser (AddReferrerRun s now userID referrerID).2 userID = some u := by
  cases hex : userExists s referrerID with
  | true =>
      have hct : AddReferrer s now userID referrerID = .error .alreadyHasReferrer := by
        simp [AddReferrer, hex, hu, hur]
      have h2 : (AddReferrerRun s now userID referrerID).2 = s := by
        unfold AddReferrerRun
        rw [hct]
        rfl
      refine ⟨fun _ => ?_, fun hf => ?_, h2, ?_⟩
      · unfold AddReferrerRun
        rw [hct]
        rfl
      · simp at hf
      · rw [h2]
        exact hu
  | false =>
      have hct : AddReferrer s now userID referrerID = .error .referrerNotFound := by
        simp [AddReferrer, hex]
      have h2 : (AddReferrerRun s now userID referrerID).2 = s := by
        unfold AddReferrerRun
        rw [hct]
        rfl
      refine ⟨fun hf => ?_, fun _ => ?_, h2, ?_⟩
      · simp at hf
      · unfold AddReferrerRun
        rw [hct]
        rfl
      · rw [h2]
        exact hu

/-- C6 witness for the amended theorem: user 1 already linked to referrer 2,
second call proposing the existing user 2 again. -/
theorem addReferrer_after_set_witness :
    (AddReferrerRun storeLinked 9 1 2).1 = .error .alreadyHasReferrer :=
  (addReferrer_after_set storeLinked 9 1 2
    { id := 1, username := "a", passw := "p", points := 0,
      referrerId := some 2, createdAt := 0, updatedAt := 0 } 2 rfl rfl).1 rfl

/-- C3: the lookup is broken for every row that exists. The SELECT of
`GetUserByID` lists six columns while its Scan passes seven destinations
(the extra one is `&user.Password`, although `passw` is not selected), so
`database/sql` fails the Scan on every present row; only the absent-row
path (the distinct not-found signal `.ok none`) behaves as specified. -/
theorem getUserByID_scan_bug :
    GetUserByID storeAlice 1 = .error .scanMismatch
    ∧ GetUserByID storeAlice 42 = .ok none
    ∧ (∀ u : UserRow, scanGetUser (getUserSelectedColumns u) = .error .scanMismatch) :=
  ⟨rfl, rfl, fun _ => rfl⟩

/-- C8: for every store and every non-negative limit, `GetLeaderboard`
returns a sequence ordered by points descending whose length is bounded by
the limit; on the store with user points `[50, 10, 30, 40]` in row order,
`GetLeaderboard 3` returns the top three points `[50, 40, 30]` in that
order. -/
theorem getLeaderboard_spec (s : Store) (limit : Int) (h : 0 ≤ limit) :
    (∃ l, GetLeaderboard s limit = .ok l
          ∧ PointsDescSorted l ∧ l.length ≤ limit.toNat)
    ∧ Except.map (fun l => l.map (fun u => u.points)) (GetLeaderboard demoStore 3)
        = .ok [50, 40, 30] := by
  constructor
  · refine ⟨((sortPointsDesc s.users).take limit.toNat).map leaderboardRow, ?_, ?_, ?_⟩
    · rw [GetLeaderboard, if_neg (not_lt.2 h)]
    · have htake : ((sortPointsDesc s.users).take limit.toNat).Pairwise
          (fun a b => b.points ≤ a.points) :=
        (sorted_sortPointsDesc s.users).sublist (List.take_sublist _ _)
      exact List.pairwise_map.2 htake
    · simp
  · rfl

/-- C8 witness: the generic part instantiated at the demo store with
limit 3. -/
theorem getLeaderboard_spec_witness :
    (0 : Int) ≤ 3
    ∧ Except.map (fun l => l.map (fun u => u.points)) (GetLeaderboard demoStore 3)
        = .ok [50, 40, 30] :=
  ⟨by decide, (getLeaderboard_spec demoStore 3 (by decide)).2⟩

/-- C9: registration persists the supplied password value directly: after
`LoginUser` with a fresh username (and fresh generated id), the stored user
row carries exactly the supplied password in `passw` — no hashing step —
and the returned user carries that same stored credential. -/
theorem loginUser_stores_password_plain (s : Store) (now newId : Nat)
    (username password : String)
    (hname : ∀ u ∈ s.users, u.username ≠ username)
    (hid : ∀ u ∈ s.users, u.id ≠ newId) :
    (LoginUserRun s now newId username password).1
        = .ok { id := newId, username := username, passw := password, points := 0,
                referrerId := none, createdAt := now, updatedAt := now }
    ∧ (LoginUserRun s now newId username password).2.users
        = s.users ++ [{ id := newId, username := username, passw := password,
                        points := 0, referrerId := none, createdAt := now,
                        updatedAt := now }] := by
  have hany1 : (s.users.any (fun v => v.username == username)) = false := by
    rw [List.any_eq_false]
    intro v hv
    simp [hname v hv]
  have hany2 : (s.users.any (fun v => v.id == newId)) = false := by
    rw [List.any_eq_false]
    intro v hv
    simp [hid v hv]
  have h1 : s.users.find? (fun v => v.username == username) = none := by
    rw [List.find?_eq_none]
    intro v hv
    simp [hname v hv]
  have hfind : (s.users
        ++ [({ id := newId, username := username, passw := password, points := 0,
               referrerId := none, createdAt := now,
               updatedAt := now } : UserRow)]).find?
          (fun v => v.username == username)
      = some { id := newId, username := username, passw := password, points := 0,
               referrerId := none, createdAt := now, updatedAt := now } := by
    rw [List.find?_append, h1]
    simp [List.find?]
  unfold LoginUserRun LoginUser runTx
  simp [hany1, hany2, hfind, loginReadUser]

/-- C9 witness: registering a fresh username on the one-user store. -/
theorem loginUser_stores_password_plain_witness :
    (LoginUserRun storeAlice 4 77 "carol" "secret").1
      = .ok { id := 77, username := "carol", passw := "secret", points := 0,
              referrerId := none, createdAt := 4, updatedAt := 4 } :=
  (loginUser_stores_password_plain storeAlice 4 77 "carol" "secret"
    (by decide) (by decide)).1

/-- C10: the register/login operation always INSERTs: when the username
already exists, the call fails with the unique-constraint error and the
store is unchanged — it never authenticates against or returns the existing
user, not even when the supplied password matches the stored one. -/
theorem loginUser_duplicate_username (s : Store) (now newId : Nat)
    (username password : String) (u : UserRow)
    (hu : u ∈ s.users) (hname : u.username = username) :
    LoginUserRun s now newId username password
      = (.error (.registerInsertFailed .duplicateKey), s) := by
  have hany : (s.users.any (fun v => v.username == username)) = true := by
    rw [List.any_eq_true]
    exact ⟨u, hu, by simp [hname]⟩
  unfold LoginUserRun LoginUser runTx
  simp [hany]

/-- C10 witness: re-registering the existing username with the original
password still fails with the unique-constraint error. -/
theorem loginUser_duplicate_username_witness :
    LoginUserRun storeAlice 4 77 "alice" "pw"
      = (.error (.registerInsertFailed .duplicateKey), storeAlice) :=
  loginUser_duplicate_username storeAlice 4 77 "alice" "pw" aliceRow
    (by decide) rfl

end DeNet
